import Mathlib

/-!
Shallow embedding of the columnar data engine of `clickhouse-rs`
(`src/types/column/mod.rs`): the `Column` wrapper (equality, slicing,
concatenation, casting dispatch, copy-on-write push) over the polymorphic
column storage.  The concrete storage variants, the view combinators
(`ChunkColumnData`, `ConcatColumnData`), the casting adapters, `SqlType`
and `NoBits` live in modules that are not part of the provided source;
those are modelled from the specification (spec sections 3, 4.2, 4.3 and
4.4), as marked on each definition.
-/

namespace ClickhouseColumn

/-- Modelled from the spec: `SqlType` is a tagged type descriptor
(e.g. UInt8, String, FixedString(n), Decimal(precision, scale),
Nullable(T), Array(T)) parsed from a wire type-name string. -/
inductive SqlType where
  | uInt8
  | uInt64
  | int64
  | date
  | string
  | fixedString (n : Nat)
  | decimal (precision scale : Nat)
  | nullable (inner : SqlType)
  | array (inner : SqlType)
deriving DecidableEq

/-- Modelled from the spec: the canonical string form of a declared type,
as produced by `SqlType::to_string()` and carried inside the invalid-cast
error. -/
def SqlType.typeName : SqlType → String
  | .uInt8 => "UInt8"
  | .uInt64 => "UInt64"
  | .int64 => "Int64"
  | .date => "Date"
  | .string => "String"
  | .fixedString n => "FixedString(" ++ toString n ++ ")"
  | .decimal p s => "Decimal(" ++ toString p ++ "," ++ toString s ++ ")"
  | .nullable t => "Nullable(" ++ t.typeName ++ ")"
  | .array t => "Array(" ++ t.typeName ++ ")"

/-- Modelled from the spec: the precision-driven choice of 32/64/128-bit
integer storage for decimal values (`NoBits`). -/
inductive NoBits where
  | n32
  | n64
  | n128
deriving DecidableEq

/-- Modelled from the spec: width chosen by precision — 1–9 selects
32-bit, 10–18 selects 64-bit, 19–38 selects 128-bit storage; precisions
outside the table have no width (`NoBits::from_precision` returns `None`). -/
def NoBits.fromPrecision (p : Nat) : Option NoBits :=
  if p = 0 then none
  else if p ≤ 9 then some .n32
  else if p ≤ 18 then some .n64
  else if p ≤ 38 then some .n128
  else none

/-- Modelled from the spec: the scalar `Value`/`ValueRef` family is an
external, opaque tagged value; only the tags relevant to the storage
variants of section 4.2 are represented.  Byte strings are lists of
byte values; a decimal row is its underlying integer with precision and
scale; `nullMarker` is the null marker a nullable storage reports when
the bitmap flag is set. -/
inductive ValueM where
  | uInt8 (v : Nat)
  | uInt64 (v : Nat)
  | int64 (v : Int)
  | date (days : Nat)
  | str (bytes : List Nat)
  | fixedStr (bytes : List Nat)
  | dec (underlying : Int) (precision scale : Nat)
  | nullMarker
  | arrayU8 (bytes : List Nat)
deriving DecidableEq

/-- Modelled from the spec (§4.3): pad with zero bytes / truncate a byte
string to exactly `n` bytes, as the fixed-string adapter does per access. -/
def fixedPad (n : Nat) (s : List Nat) : List Nat :=
  s.take n ++ List.replicate (n - s.length) 0

/-- Modelled from the spec (§4.3): rescale a decimal's underlying integer
by the scale difference (multiply/divide by `10^|s2-s1|`). -/
def rescaleDecimal (u : Int) (srcScale dstScale : Nat) : Int :=
  if srcScale ≤ dstScale then u * (10 : Int) ^ (dstScale - srcScale)
  else u / (10 : Int) ^ (srcScale - dstScale)

mutual
/-- The type-erased column storage (`ArcColumnData` contents).  `loaded`
stands for any directly loaded homogeneous storage variant (§4.2);
`chunk` is `ChunkColumnData` (spec §4.4), `concatView` is
`ConcatColumnData` (spec §4.4), and the remaining constructors are the
casting adapters `FixedStringAdapter`, `NullableFixedStringAdapter`,
`StringAdapter`, `DecimalAdapter`, `NullableDecimalAdapter` created by
`Column::cast_to` (src/types/column/mod.rs lines 230-303). -/
inductive ColumnDataM where
  | loaded (t : SqlType) (values : List ValueM)
  | chunk (inner : ColumnDataM) (start stop : Nat)
  | concatView (parts : ColumnDataList)
  | fixedStringAdapter (inner : ColumnDataM) (strLen : Nat)
  | nullableFixedStringAdapter (inner : ColumnDataM) (strLen : Nat)
  | stringAdapter (inner : ColumnDataM)
  | decimalAdapter (inner : ColumnDataM) (precision scale : Nat) (nobits : NoBits)
  | nullableDecimalAdapter (inner : ColumnDataM) (precision scale : Nat) (nobits : NoBits)

/-- The ordered sequence of parts of a `ConcatColumnData` (spec §4.4). -/
inductive ColumnDataList where
  | nil
  | cons (head : ColumnDataM) (tail : ColumnDataList)
end

mutual
/-- `ColumnData::len()`: number of rows.  A chunk's length is the width of
its `[start, stop)` window, a concatenation's the sum of part lengths
(spec §4.4); adapters delegate to the wrapped storage. -/
def ColumnDataM.len : ColumnDataM → Nat
  | .loaded _ vs => vs.length
  | .chunk _ start stop => stop - start
  | .concatView parts => parts.lenSum
  | .fixedStringAdapter inner _ => inner.len
  | .nullableFixedStringAdapter inner _ => inner.len
  | .stringAdapter inner => inner.len
  | .decimalAdapter inner _ _ _ => inner.len
  | .nullableDecimalAdapter inner _ _ _ => inner.len

/-- Sum of the lengths of concatenated parts. -/
def ColumnDataList.lenSum : ColumnDataList → Nat
  | .nil => 0
  | .cons p ps => p.len + ps.lenSum
end

mutual
/-- `ColumnData::sql_type()`: the declared SQL type.  A chunk reports its
inner storage's type, a concatenation its first part's type (parts are
non-empty by construction, see `Column.concat`); each adapter reports the
destination type it was created for (spec §4.3). -/
def ColumnDataM.sqlType : ColumnDataM → SqlType
  | .loaded t _ => t
  | .chunk inner _ _ => inner.sqlType
  | .concatView parts => parts.headSqlType
  | .fixedStringAdapter _ n => .fixedString n
  | .nullableFixedStringAdapter _ n => .nullable (.fixedString n)
  | .stringAdapter _ => .string
  | .decimalAdapter _ p s _ => .decimal p s
  | .nullableDecimalAdapter _ p s _ => .nullable (.decimal p s)

/-- Declared type of a part list: the first part's type. -/
def ColumnDataList.headSqlType : ColumnDataList → SqlType
  | .nil => .string
  | .cons p _ => p.sqlType
end

mutual
/-- `ColumnData::at(index)`: the row value at an index, `none` when the
index is out of range (the source treats that as a contract violation).
The chunk view forwards to `inner.at(start + i)` (spec §4.4); the concat
view locates the part whose cumulative-length bracket contains the index
(spec §4.4); adapters convert the wrapped storage's value per access
(spec §4.3), passing null markers through unchanged. -/
def ColumnDataM.atIdx : ColumnDataM → Nat → Option ValueM
  | .loaded _ vs, i => vs.get? i
  | .chunk inner start _, i => inner.atIdx (start + i)
  | .concatView parts, i => parts.atGlobal i
  | .fixedStringAdapter inner n, i =>
    match inner.atIdx i with
    | some (.str s) => some (.fixedStr (fixedPad n s))
    | _ => none
  | .nullableFixedStringAdapter inner n, i =>
    match inner.atIdx i with
    | some .nullMarker => some .nullMarker
    | some (.str s) => some (.fixedStr (fixedPad n s))
    | _ => none
  | .stringAdapter inner, i =>
    match inner.atIdx i with
    | some (.arrayU8 bs) => some (.str bs)
    | _ => none
  | .decimalAdapter inner p s _, i =>
    match inner.atIdx i with
    | some (.dec u _ s0) => some (.dec (rescaleDecimal u s0 s) p s)
    | _ => none
  | .nullableDecimalAdapter inner p s _, i =>
    match inner.atIdx i with
    | some .nullMarker => some .nullMarker
    | some (.dec u _ s0) => some (.dec (rescaleDecimal u s0 s) p s)
    | _ => none

/-- Map a global index of a concatenation to the containing part and a
local index, by walking the cumulative part lengths. -/
def ColumnDataList.atGlobal : ColumnDataList → Nat → Option ValueM
  | .nil, _ => none
  | .cons p ps, i => if i < p.len then p.atIdx i else ps.atGlobal (i - p.len)
end

/-- The compile-time marker of `Column<K>`: `Simple` means a single
homogeneous storage instance, `Complex` any combination including views
and adapters (src/types/column/mod.rs lines 53-65). -/
inductive ColumnTag where
  | simple
  | complex
deriving DecidableEq

/-- `Column<K>`: a name, a shared handle to storage, and the compile-time
tag (src/types/column/mod.rs lines 41-45).  The sharing of the handle is
irrelevant to the read-only operations modelled here; it is modelled
explicitly for `push` below (`ArcHeap`). -/
structure Column where
  name : String
  tag : ColumnTag
  data : ColumnDataM

/-- `Column::len` (src/types/column/mod.rs lines 210-212). -/
def Column.len (c : Column) : Nat := c.data.len

/-- `Column::sql_type` (src/types/column/mod.rs lines 195-197). -/
def Column.sqlType (c : Column) : SqlType := c.data.sqlType

/-- `Column::at` (src/types/column/mod.rs lines 199-201); named `atIdx`
because `at` is a reserved word in Lean. -/
def Column.atIdx (c : Column) (i : Nat) : Option ValueM := c.data.atIdx i

/-- `impl PartialEq for Column` (src/types/column/mod.rs lines 85-103):
lengths must match, declared SQL types must match, and every pairwise
`at(i)` comparison must hold.  Defined for any pair of tags, like the
source's `PartialEq<Column<R>> for Column<L>`. -/
def Column.beq (a b : Column) : Bool :=
  if a.len ≠ b.len then false
  else if a.sqlType ≠ b.sqlType then false
  else (List.range a.len).all fun i => decide (a.atIdx i = b.atIdx i)

/-- `Column::slice` (src/types/column/mod.rs lines 214-221): wrap the
shared storage in a `ChunkColumnData` over the given range; the result is
a `Column<Complex>`. -/
def Column.slice (c : Column) (start stop : Nat) : Column :=
  { name := c.name, tag := .complex, data := .chunk c.data start stop }

/-- Convert a list of storages into concatenation parts. -/
def toParts : List ColumnDataM → ColumnDataList
  | [] => .nil
  | d :: ds => .cons d (toParts ds)

/-- `Column::concat` (src/types/column/mod.rs lines 116-134): collect the
items' storage handles, and stitch them with `ConcatColumnData::concat`;
the result carries the first item's name and is a `Column<Complex>`.  An
empty iterator hits `unreachable!()`, modelled as `none`. -/
def Column.concat (items : List Column) : Option Column :=
  match items with
  | [] => none
  | first :: _ =>
    some { name := first.name
         , tag := .complex
         , data := .concatView (toParts (items.map fun c => c.data)) }

/-- Outcome of `Column::cast_to`: `Ok(column)`, the
`FromSqlError::InvalidType { src, dst }` error (carrying both type-name
strings), or a panic (the `.unwrap()` on `NoBits::from_precision`). -/
inductive CastResult where
  | ok (column : Column)
  | invalidType (src dst : String)
  | panicked

/-- `true` on `CastResult.ok`. -/
def CastResult.isOk : CastResult → Bool
  | .ok _ => true
  | _ => false

/-- `Column::cast_to` (src/types/column/mod.rs lines 223-309): identity
casts return the column unchanged; the listed (dst, src) pairs build the
matching adapter; a destination Decimal precision with no `NoBits` width
panics (`.unwrap()` of `None`); every other pair returns the
invalid-type error carrying both type names.  The source's
`(FixedString(n), Array(UInt8))` arm casts recursively through `String`;
both inner casts hit the direct adapter arms, unfolded here. -/
def Column.castTo (c : Column) (dst : SqlType) : CastResult :=
  if dst = c.sqlType then .ok c
  else
    match dst, c.sqlType with
    | .fixedString n, .string =>
      .ok { name := c.name, tag := c.tag, data := .fixedStringAdapter c.data n }
    | .nullable (.fixedString n), .nullable .string =>
      .ok { name := c.name, tag := c.tag, data := .nullableFixedStringAdapter c.data n }
    | .string, .array .uInt8 =>
      .ok { name := c.name, tag := c.tag, data := .stringAdapter c.data }
    | .fixedString n, .array .uInt8 =>
      .ok { name := c.name, tag := c.tag
          , data := .fixedStringAdapter (.stringAdapter c.data) n }
    | .decimal p s, .decimal _ _ =>
      match NoBits.fromPrecision p with
      | some nb =>
        .ok { name := c.name, tag := c.tag, data := .decimalAdapter c.data p s nb }
      | none => .panicked
    | .nullable (.decimal p s), .nullable (.decimal _ _) =>
      match NoBits.fromPrecision p with
      | some nb =>
        .ok { name := c.name, tag := c.tag, data := .nullableDecimalAdapter c.data p s nb }
      | none => .panicked
    | d, s => .invalidType s.typeName d.typeName

/-- The (dst, src) pairs that have a dedicated arm in `Column::cast_to`
(spec §4.3's adapter table, as realised by the source's match). -/
def castSupportedPair : SqlType → SqlType → Bool
  | .fixedString _, .string => true
  | .nullable (.fixedString _), .nullable .string => true
  | .string, .array .uInt8 => true
  | .fixedString _, .array .uInt8 => true
  | .decimal _ _, .decimal _ _ => true
  | .nullable (.decimal _ _), .nullable (.decimal _ _) => true
  | _, _ => false

/-!
## Shared-ownership model for `push`

`Column::push` (src/types/column/mod.rs lines 311-323) relies on
`Arc::get_mut` (exclusive access iff the strong count is one; the
code base creates no weak references) and on
`ColumnData::clone_instance` (spec §4.1: a deep, independent copy with
identical content).  The `Arc` heap is modelled explicitly: a cell store,
a strong-count per cell, and the next fresh address.
-/

/-- Modelled from the spec (§4.1, §4.2): a concrete loaded storage —
the declared type plus the ordered row values.  `push` appends one row,
growing the length by exactly one. -/
structure StorageData where
  sqlType : SqlType
  values : List ValueM
deriving DecidableEq

/-- Modelled from the spec (§4.1): `ColumnData::push` appends one row. -/
def StorageData.pushValue (s : StorageData) (v : ValueM) : StorageData :=
  { s with values := s.values ++ [v] }

/-- The `Arc` heap: storage cells, per-cell strong reference counts, and
the next fresh address. -/
structure ArcHeap where
  store : Nat → StorageData
  strong : Nat → Nat
  next : Nat

/-- A `Column` as a holder of a shared storage handle: its name and the
address of the cell its `Arc` points to. -/
structure ColumnRef where
  name : String
  ptr : Nat

/-- `self.data = Arc::from(self.data.clone_instance())`: allocate a fresh
cell holding a deep copy of the cell at `p` with strong count one, and
release the old handle (decrementing `p`'s count).  Returns the new heap
and the fresh address. -/
def ArcHeap.cloneReplace (h : ArcHeap) (p : Nat) : ArcHeap × Nat :=
  ({ store := fun q => if q = h.next then h.store p else h.store q
   , strong := fun q => if q = h.next then 1 else if q = p then h.strong p - 1 else h.strong q
   , next := h.next + 1 }, h.next)

/-- The retry loop of `Column::push` (src/types/column/mod.rs lines
311-323), with explicit fuel: `Arc::get_mut` succeeds iff the strong
count of the handle's cell is one, in which case the storage is mutated
in place; otherwise the handle is replaced by a fresh sole-owner deep
clone and the loop retries.  `none` means the fuel ran out before the
loop broke. -/
def ColumnRef.pushLoop : Nat → ArcHeap → ColumnRef → ValueM → Option (ArcHeap × ColumnRef)
  | 0, _, _, _ => none
  | fuel + 1, h, c, v =>
    if h.strong c.ptr = 1 then
      some ({ h with store := fun q => if q = c.ptr then (h.store c.ptr).pushValue v else h.store q }, c)
    else
      let r := h.cloneReplace c.ptr
      ColumnRef.pushLoop fuel r.1 { c with ptr := r.2 } v

/-- `Column::push`: the loop with fuel two, which always suffices (the
clone branch is taken at most once — see the termination theorem). -/
def ColumnRef.push (h : ArcHeap) (c : ColumnRef) (v : ValueM) : Option (ArcHeap × ColumnRef) :=
  ColumnRef.pushLoop 2 h c v

/-!
## Concrete inputs used by witnesses and counterexamples
-/

/-- A loaded Decimal(6,2) column with one row. -/
def cDec : Column :=
  { name := "total", tag := .simple, data := .loaded (.decimal 6 2) [.dec 12345 6 2] }

/-- A loaded String column with one row. -/
def cStr : Column :=
  { name := "payload", tag := .simple, data := .loaded .string [.str [104, 105]] }

/-- A loaded Array(UInt8) column with one row. -/
def cBytes : Column :=
  { name := "blob", tag := .simple, data := .loaded (.array .uInt8) [.arrayU8 [1, 2, 3]] }

/-- A loaded UInt8 column with five rows. -/
def cNums : Column :=
  { name := "nums", tag := .simple
  , data := .loaded .uInt8 [.uInt8 10, .uInt8 11, .uInt8 12, .uInt8 13, .uInt8 14] }

/-- A one-row UInt8 column named `x`. -/
def wX : Column :=
  { name := "x", tag := .simple, data := .loaded .uInt8 [.uInt8 1] }

/-- A chunk view named `y` with the same single row value as `wX` but a
different physical layout and a different tag. -/
def wY : Column :=
  { name := "y", tag := .complex
  , data := .chunk (.loaded .uInt8 [.uInt8 0, .uInt8 1]) 1 2 }

/-- A heap with a single live cell at address 0 whose strong count is
two (two holders). -/
def h0 : ArcHeap :=
  { store := fun _ => { sqlType := .uInt8, values := [.uInt8 1, .uInt8 2] }
  , strong := fun p => if p = 0 then 2 else 0
  , next := 1 }

/-- A handle named `a` on cell 0 of `h0`. -/
def refA : ColumnRef := { name := "a", ptr := 0 }

/-- A second handle named `b` on the same cell 0 of `h0`. -/
def refB : ColumnRef := { name := "b", ptr := 0 }

/-!
## Helper lemmas
-/

/-- `Column.beq` holds exactly when the lengths agree, the declared SQL
types agree, and every in-range `at` access agrees. -/
theorem columnBeq_iff (a b : Column) :
    Column.beq a b = true ↔
      a.len = b.len ∧ a.sqlType = b.sqlType ∧
        ∀ i, i < a.len → a.atIdx i = b.atIdx i := by
  unfold Column.beq
  by_cases h1 : a.len = b.len
  · by_cases h2 : a.sqlType = b.sqlType
    · simp [h1, h2, List.all_eq_true, List.mem_range]
    · simp [h1, h2]
  · simp [h1]

/-!
## Claims
-/

/-- C2.  Column equality: two Columns (of possibly different
Simple/Complex tags, any physical layout) compare equal iff their
lengths are equal, their declared SQL types are equal, and `at i` of one
equals `at i` of the other for every index `i` below the length. -/
theorem column_eq_value_characterization (a b : Column) :
    Column.beq a b = true ↔
      a.len = b.len ∧ a.sqlType = b.sqlType ∧
        ∀ i, i < a.len → a.atIdx i = b.atIdx i :=
  columnBeq_iff a b

/-- C10.  Equality ignores the column name: Columns with equal lengths,
equal declared SQL types and pairwise-equal `at i` values compare equal
even when their name fields differ. -/
theorem column_eq_ignores_name (a b : Column) (hname : a.name ≠ b.name)
    (hlen : a.len = b.len) (htype : a.sqlType = b.sqlType)
    (hval : ∀ i, i < a.len → a.atIdx i = b.atIdx i) :
    Column.beq a b = true :=
  (columnBeq_iff a b).mpr ⟨hlen, htype, hval⟩

/-- C10 witness: `wX` and `wY` differ in name (and tag and layout) yet
compare equal. -/
theorem column_eq_ignores_name_witness : Column.beq wX wY = true :=
  column_eq_ignores_name wX wY (by decide) (by decide) (by decide) (by decide)

/-- C4.  Cast identity: casting a column to its own declared type
succeeds and returns the original column unchanged (same name, same
storage handle), and the result is equal to the original under value
equality. -/
theorem cast_identity (c : Column) :
    Column.castTo c c.sqlType = .ok c ∧ Column.beq c c = true := by
  constructor
  · unfold Column.castTo
    simp
  · exact (columnBeq_iff c c).mpr ⟨rfl, rfl, fun i _ => rfl⟩

/-- C6.  Slicing correctness: for an in-bounds range `[start, stop)` and
`k < stop - start`, `(c.slice start stop).at k` equals `c.at (start + k)`,
and the slice's length is `stop - start`. -/
theorem slice_correct (c : Column) (start stop k : Nat)
    (hab : start ≤ stop) (hstop : stop ≤ c.len) (hk : k < stop - start) :
    (c.slice start stop).atIdx k = c.atIdx (start + k) ∧
      (c.slice start stop).len = stop - start :=
  ⟨rfl, rfl⟩

/-- C6 witness: slicing rows `[2, 5)` of the five-row column. -/
theorem slice_correct_witness :
    (cNums.slice 2 5).atIdx 1 = cNums.atIdx (2 + 1) ∧
      (cNums.slice 2 5).len = 5 - 2 :=
  slice_correct cNums 2 5 1 (by decide) (by decide) (by decide)

/-- C7.  Complex downgrade: `slice` always yields a Complex-tagged
column, and `concat` of a non-empty sequence of Simple columns yields a
Complex-tagged column; neither yields a Simple-tagged column. -/
theorem slice_concat_complex (c x : Column) (start stop : Nat) (xs : List Column)
    (hsimple : ∀ y ∈ x :: xs, y.tag = .simple) :
    (c.slice start stop).tag = .complex ∧
      ∃ r, Column.concat (x :: xs) = some r ∧ r.tag = .complex :=
  ⟨rfl, ⟨_, rfl, rfl⟩⟩

/-- C7 witness: slicing and concatenating concrete Simple columns. -/
theorem slice_concat_complex_witness :
    (cNums.slice 1 3).tag = .complex ∧
      ∃ r, Column.concat [cNums, wX] = some r ∧ r.tag = .complex :=
  slice_concat_complex cNums cNums 1 3 [wX] (by decide)

/-- C8.  Concat precondition and name choice: `concat` of an empty
iterator hits `unreachable!()` (modelled as `none`), and for a non-empty
iterator the resulting column's name is the first input's name. -/
theorem concat_empty_and_name (x : Column) (xs : List Column) :
    Column.concat ([] : List Column) = none ∧
      ∃ r, Column.concat (x :: xs) = some r ∧ r.name = x.name :=
  ⟨rfl, ⟨_, rfl, rfl⟩⟩

/-- C9.  Push termination: the retry loop inside `push` needs at most two
iterations (it clones the storage at most once): with fuel two the loop
always breaks, because after replacing the handle with a freshly created
sole-owner clone the exclusive-access check necessarily succeeds. -/
theorem push_loop_terminates (h : ArcHeap) (c : ColumnRef) (v : ValueM) :
    (ColumnRef.pushLoop 2 h c v).isSome = true := by
  by_cases h1 : h.strong c.ptr = 1
  · simp [ColumnRef.pushLoop, h1]
  · simp [ColumnRef.pushLoop, h1, ArcHeap.cloneReplace]

/-- C1.  Copy-on-write push: when the shared handle is the sole holder
(strong count one) `push` mutates the storage in place, touching no other
cell and allocating nothing; otherwise it replaces the handle with a deep
clone and mutates the clone, so that for two Columns `A` and `B` sharing
the same storage, after `push` on `A`, `B`'s cell is unchanged (same
length, same contents) while `A`'s storage gained exactly one row whose
last value is the pushed value. -/
theorem push_cow (h : ArcHeap) (A B : ColumnRef) (v : ValueM)
    (hAB : A.ptr = B.ptr) (hB : B.ptr < h.next) :
    (h.strong A.ptr = 1 →
      ∃ h1, ColumnRef.push h A v = some (h1, A) ∧
        h1.store A.ptr = (h.store A.ptr).pushValue v ∧
        (∀ q, q ≠ A.ptr → h1.store q = h.store q) ∧
        h1.next = h.next) ∧
    (2 ≤ h.strong A.ptr →
      ∃ h1 A1, ColumnRef.push h A v = some (h1, A1) ∧
        A1.ptr ≠ B.ptr ∧ A1.name = A.name ∧
        h1.store B.ptr = h.store B.ptr ∧
        (h1.store A1.ptr).values = (h.store A.ptr).values ++ [v] ∧
        (h1.store A1.ptr).values.length = (h.store A.ptr).values.length + 1 ∧
        (h1.store A1.ptr).values.getLast? = some v ∧
        (h1.store A1.ptr).sqlType = (h.store A.ptr).sqlType) := by
  constructor
  · intro hone
    refine ⟨{ h with store := fun q =>
                if q = A.ptr then (h.store A.ptr).pushValue v else h.store q }
          , ?_, ?_, ?_, ?_⟩
    · show ColumnRef.pushLoop 2 h A v = _
      simp [ColumnRef.pushLoop, hone]
    · simp
    · intro q hq
      simp [hq]
    · rfl
  · intro htwo
    have hne1 : h.strong A.ptr ≠ 1 := by omega
    have hBne : B.ptr ≠ h.next := Nat.ne_of_lt hB
    refine ⟨{ (h.cloneReplace A.ptr).1 with store := fun q =>
                if q = h.next then ((h.cloneReplace A.ptr).1.store h.next).pushValue v
                else (h.cloneReplace A.ptr).1.store q }
          , { name := A.name, ptr := h.next }
          , ?_, ?_, ?_, ?_, ?_, ?_, ?_, ?_⟩
    · show ColumnRef.pushLoop 2 h A v = _
      simp [ColumnRef.pushLoop, hne1, ArcHeap.cloneReplace]
    · simpa using Ne.symm hBne
    · rfl
    · simp [ArcHeap.cloneReplace, hBne]
    · simp [ArcHeap.cloneReplace, StorageData.pushValue]
    · simp [ArcHeap.cloneReplace, StorageData.pushValue]
    · simp [ArcHeap.cloneReplace, StorageData.pushValue, List.getLast?_concat]
    · simp [ArcHeap.cloneReplace, StorageData.pushValue]

/-- C1 witness: two handles `refA`, `refB` on the same cell of `h0`
(strong count two); pushing through `refA` leaves `refB`'s cell intact
and produces a fresh cell with the appended row. -/
theorem push_cow_witness :
    ∃ h1 A1, ColumnRef.push h0 refA (.uInt8 7) = some (h1, A1) ∧
      A1.ptr ≠ refB.ptr ∧ A1.name = refA.name ∧
      h1.store refB.ptr = h0.store refB.ptr ∧
      (h1.store A1.ptr).values = (h0.store refA.ptr).values ++ [.uInt8 7] ∧
      (h1.store A1.ptr).values.length = (h0.store refA.ptr).values.length + 1 ∧
      (h1.store A1.ptr).values.getLast? = some (.uInt8 7) ∧
      (h1.store A1.ptr).sqlType = (h0.store refA.ptr).sqlType :=
  (push_cow h0 refA refB (.uInt8 7) rfl (by decide)).2 (by decide)

/-- C3 counterexample: the invalid-type error is not the only failure
mode of `cast_to` — casting the Decimal(6,2) column `cDec` to
Decimal(99,2), a supported (Decimal, Decimal) pair, panics on the
`NoBits::from_precision(dst_p).unwrap()` because precision 99 has no
storage width, instead of returning the invalid-type error. -/
theorem cast_decimal_panic_counterexample :
    Column.castTo cDec (SqlType.decimal 99 2) = CastResult.panicked := rfl

/-- C3 (amended).  Cast failure modes: a non-identity cast between a pair
with no dedicated adapter arm returns the invalid-type error carrying the
source and destination type names; but this is not the only failure mode:
a Decimal-to-Decimal cast succeeds when the destination precision has a
storage width (1 ≤ p ≤ 38) and panics on the `unwrap` of
`NoBits::from_precision` when it has none. -/
theorem cast_failure_modes (c : Column) (dst : SqlType) (hne : dst ≠ c.sqlType) :
    (castSupportedPair dst c.sqlType = false →
      Column.castTo c dst = .invalidType c.sqlType.typeName dst.typeName) ∧
    (∀ p s p0 s0, dst = .decimal p s → c.sqlType = .decimal p0 s0 →
      (∀ nb, NoBits.fromPrecision p = some nb →
        Column.castTo c dst =
          .ok { name := c.name, tag := c.tag, data := .decimalAdapter c.data p s nb }) ∧
      (NoBits.fromPrecision p = none → Column.castTo c dst = .panicked)) := by
  constructor
  · intro hsupp
    unfold Column.castTo
    rw [if_neg hne]
    revert hsupp
    generalize c.sqlType = src
    intro hsupp
    cases dst <;> cases src <;>
      solve
        | rfl
        | simp_all [castSupportedPair]
        | (rename_i u
           cases u <;> solve | rfl | simp_all [castSupportedPair])
        | (rename_i t u
           cases t <;> cases u <;> solve | rfl | simp_all [castSupportedPair])
  · intro p s p0 s0 hdst hsrc
    subst hdst
    rw [hsrc] at hne
    unfold Column.castTo
    rw [hsrc, if_neg hne]
    constructor
    · intro nb hnb
      simp [hnb]
    · intro hnone
      simp [hnone]

/-- C3 (amended) witness: casting the UInt8 column `cNums` to String (no
adapter arm, not an identity cast) yields the invalid-type error carrying
both type names. -/
theorem cast_failure_modes_witness :
    Column.castTo cNums SqlType.string =
      .invalidType (Column.sqlType cNums).typeName SqlType.string.typeName :=
  (cast_failure_modes cNums SqlType.string (by decide)).1 (by decide)

/-- C5 counterexample: the String-to-Array(UInt8) direction is not
supported — casting the String column `cStr` to Array(UInt8) does not
succeed (it returns the invalid-type error). -/
theorem string_to_array_cast_fails_counterexample :
    (Column.castTo cStr (SqlType.array SqlType.uInt8)).isOk = false := rfl

/-- C5 (amended).  The Array(UInt8)/String reinterpretation cast is
supported in one direction only: a column of type Array(UInt8) casts to
String successfully (wrapping the storage in the byte-reinterpreting
`StringAdapter`); a column of type String cast to Array(UInt8) fails with
the invalid-type error carrying both type names. -/
theorem array_uint8_string_cast (c d : Column)
    (hc : c.sqlType = SqlType.array SqlType.uInt8) (hd : d.sqlType = SqlType.string) :
    Column.castTo c SqlType.string =
      .ok { name := c.name, tag := c.tag, data := .stringAdapter c.data } ∧
    Column.castTo d (SqlType.array SqlType.uInt8) =
      .invalidType SqlType.string.typeName (SqlType.array SqlType.uInt8).typeName := by
  constructor
  · unfold Column.castTo
    rw [hc]
    rfl
  · unfold Column.castTo
    rw [hd]
    rfl

/-- C5 (amended) witness: the concrete Array(UInt8) column `cBytes` casts
to String; the concrete String column `cStr` fails to cast to
Array(UInt8). -/
theorem array_uint8_string_cast_witness :
    Column.castTo cBytes SqlType.string =
      .ok { name := cBytes.name, tag := cBytes.tag, data := .stringAdapter cBytes.data } ∧
    Column.castTo cStr (SqlType.array SqlType.uInt8) =
      .invalidType SqlType.string.typeName (SqlType.array SqlType.uInt8).typeName :=
  array_uint8_string_cast cBytes cStr rfl rfl

end ClickhouseColumn
